import Mathlib

/-!
Verification of `rainman/helpers/decorators.py`, the `crossdomain` decorator
that attaches CORS response headers to a Flask view function.

The Python source is shallowly embedded:
* Python values that may be `None`, a string or an iterable of strings are
  the inductive `PyVal`; a `TypeError` raised by `', '.join(...)` on an
  unsuitable value is `Option.none`.
* `str.upper()` / `str.lower()` are mapped over the character list
  (the ASCII regime, which covers HTTP method and header names).
* The builtin `sorted` on strings is `List.insertionSort` with the
  lexicographic order on `String` (Python sorts strings by code point and
  is stable; insertion sort with a total order matches both).
* Werkzeug header maps are association lists with case-insensitive keys;
  `h[k] = v` replaces every entry whose key matches case-insensitively and
  appends the new entry, `h[k]` is the first match (`Option.none` for the
  `KeyError` case).
* `timedelta` arguments carry their total duration in microseconds;
  `total_seconds()` produces a Python float, whose `str` rendering is
  modelled exactly on whole-second durations below `10 ^ 11` seconds
  (where the binary64 value is exact and Python 2 prints `"<n>.0"`);
  outside that regime the rendering is left unmodelled as `Option.none`.
-/

namespace Rainman

/-- Python `str.lower()` restricted to ASCII case mapping. -/
def pyLower (s : String) : String :=
  String.mk (s.data.map Char.toLower)

/-- Python `str.upper()` restricted to ASCII case mapping. -/
def pyUpper (s : String) : String :=
  String.mk (s.data.map Char.toUpper)

/-- Case-insensitive key comparison, as Werkzeug header maps use. -/
def lowerEq (a b : String) : Bool :=
  pyLower a == pyLower b

/-- A Werkzeug header map: an association list of header name / value pairs. -/
abbrev Headers := List (String × String)

/-- `h[k]`: first entry whose key matches case-insensitively; `Option.none`
is the `KeyError` case. -/
def hget : Headers → String → Option String
  | [], _ => Option.none
  | p :: t, k => if lowerEq p.1 k then some p.2 else hget t k

/-- `h[k] = v`: drop every entry whose key matches case-insensitively,
then append the new pair. -/
def hset (h : Headers) (k v : String) : Headers :=
  (h.filter fun p => !(lowerEq p.1 k)) ++ [(k, v)]

/-- A Flask response: an abstract body plus its header map. -/
structure Response where
  body : String
  headers : Headers
deriving DecidableEq

/-- The request-time framework state the decorator reads:
`current_app.make_default_options_response()` (deterministic within one
request context, so a single value per call). -/
structure Env where
  defaultOptionsResp : Response
deriving DecidableEq

/-- A Python argument that is `None`, a string, an iterable of strings, or
some other non-string non-iterable object (an int, a bool, ...). -/
inductive PyVal where
  | none
  | str (s : String)
  | strList (xs : List String)
  | other
deriving DecidableEq

/-- A `max_age` argument: an integer or a `timedelta` whose total duration
is the given number of microseconds. -/
inductive MaxAgeArg where
  | int (n : Int)
  | timedelta (micro : Int)
deriving DecidableEq

/-- The normalised `max_age` held in the closure: still an int, or the
Python float returned by `timedelta.total_seconds()` (value `micro / 10^6`
seconds). -/
inductive MaxAgeVal where
  | int (n : Int)
  | float (micro : Int)
deriving DecidableEq

/-- `isinstance(max_age, timedelta)` branch of `crossdomain`:
a `timedelta` is replaced by `max_age.total_seconds()`. -/
def normalize_max_age : MaxAgeArg → MaxAgeVal
  | .int n => .int n
  | .timedelta micro => .float micro

/-- Python `str(max_age)` on the normalised value. An int renders as its
decimal digits. The float from `total_seconds()` renders as `"<n>.0"` when
the duration is a whole number of seconds `n` with `|n| < 10 ^ 11` (there
the binary64 value is exact and Python 2 uses that fixed-point form);
other float renderings are left unmodelled (`Option.none`). -/
def pyStr_max_age : MaxAgeVal → Option String
  | .int n => some (toString n)
  | .float micro =>
      if micro % 1000000 = 0 ∧ (micro / 1000000).natAbs < 10 ^ 11 then
        some (toString (micro / 1000000) ++ ".0")
      else
        Option.none

/-- Python string comparison on character lists: lexicographic by code
point, a proper prefix compares below its extensions. -/
def charListLeb : List Char → List Char → Bool
  | [], _ => true
  | _ :: _, [] => false
  | a :: as, b :: bs =>
      if a < b then true else if b < a then false else charListLeb as bs

/-- Python `<=` on strings. -/
def strLeb (a b : String) : Bool :=
  charListLeb a.data b.data

/-- Python `sorted` on a list of strings (stable, lexicographic by code
point; insertion sort with a total preorder computes the same list). -/
def pySorted (xs : List String) : List String :=
  List.insertionSort (fun a b => strLeb a b = true) xs

/-- `', '.join(sorted(x.upper() for x in methods))`. -/
def normalize_methods (xs : List String) : String :=
  String.intercalate ", " (pySorted (xs.map pyUpper))

/-- The `headers` normalisation of `crossdomain`: `None` passes through, a
string is kept verbatim, an iterable is uppercased element-wise and
comma-joined; joining a non-iterable raises `TypeError` (outer
`Option.none`). -/
def normalize_headers : PyVal → Option (Option String)
  | .none => some Option.none
  | .str s => some (some s)
  | .strList xs => some (some (String.intercalate ", " (xs.map pyUpper)))
  | .other => Option.none

/-- The `origin` normalisation of `crossdomain`: a string is kept verbatim,
anything else is passed to `', '.join(origin)`, which joins an iterable of
strings without changing case and raises `TypeError` on `None` or another
non-iterable. -/
def normalize_origin : PyVal → Option String
  | .str s => some s
  | .strList xs => some (String.intercalate ", " xs)
  | _ => Option.none

/-- The immutable configuration closed over at decoration time. -/
structure Policy where
  origin : String
  methods : Option String
  headers : Option String
  max_age : MaxAgeVal
  attach_to_all : Bool
  automatic_options : Bool
deriving DecidableEq

/-- The body of `crossdomain(...)` itself: the decoration-time
normalisation of all six parameters. `Option.none` is a `TypeError`
escaping `crossdomain` before any request is handled. -/
def crossdomain (origin : PyVal) (methods : Option (List String))
    (headers : PyVal) (max_age : MaxAgeArg)
    (attach_to_all : Bool) (automatic_options : Bool) : Option Policy :=
  match normalize_headers headers, normalize_origin origin with
  | some hN, some oN =>
      some { origin := oN
             methods := methods.map normalize_methods
             headers := hN
             max_age := normalize_max_age max_age
             attach_to_all := attach_to_all
             automatic_options := automatic_options }
  | _, _ => Option.none

/-- `get_methods()`: the configured methods if any, else the `allow`
header of the framework's default OPTIONS response (a missing `allow`
header would be a `KeyError`, `Option.none`). -/
def get_methods (p : Policy) (env : Env) : Option String :=
  match p.methods with
  | some m => some m
  | Option.none => hget env.defaultOptionsResp.headers "allow"

/-- `make_response` coerces the view function's return value into a
response object; on values that are already responses it is the
identity, which is the regime modelled here. -/
def make_response (r : Response) : Response := r

/-- The response `wrapped_function` starts from: the framework's default
OPTIONS response when `automatic_options` is set and the request method is
OPTIONS, otherwise the coerced result of calling the wrapped handler. -/
def base_response (p : Policy) (env : Env) (method : String)
    (f : Unit → Response) : Response :=
  if p.automatic_options && method == "OPTIONS" then env.defaultOptionsResp
  else make_response (f ())

/-- The four header assignments of `wrapped_function` (the part after the
early return). `Option.none` covers a `KeyError` from `get_methods` and
the unmodelled float renderings of `str(max_age)`. -/
def attach_cors (p : Policy) (env : Env) (resp : Response) : Option Response :=
  match get_methods p env, pyStr_max_age p.max_age with
  | some ms, some ma =>
      let h0 := hset resp.headers "Access-Control-Allow-Origin" p.origin
      let h1 := hset h0 "Access-Control-Allow-Methods" ms
      let h2 := hset h1 "Access-Control-Max-Age" ma
      let h3 := match p.headers with
        | some hs => hset h2 "Access-Control-Allow-Headers" hs
        | Option.none => h2
      some { resp with headers := h3 }
  | _, _ => Option.none

/-- One invocation of `wrapped_function` for a request with the given
method, where `f` is the wrapped view function. -/
def wrapped_function (p : Policy) (env : Env) (method : String)
    (f : Unit → Response) : Option Response :=
  let resp := base_response p env method f
  if !p.attach_to_all && method != "OPTIONS" then some resp
  else attach_cors p env resp

/-- A Python function object carrying the attributes the decorator
touches: `provide_automatic_options` is absent (`Option.none`) until
assigned. -/
structure Handler where
  name : String
  provide_automatic_options : Option Bool
  func : Unit → Response

/-- The view the decorator returns: `update_wrapper(wrapped_function, f)`
copies the handler's name and attribute dict onto the wrapper. -/
structure WrappedView where
  name : String
  provide_automatic_options : Option Bool
  call : Env → String → Option Response

/-- The inner `decorator(f)`: sets `f.provide_automatic_options = False` on
the original handler, then returns `update_wrapper(wrapped_function, f)`.
The result is the pair (mutated original handler, returned wrapper). -/
def decorator (p : Policy) (f : Handler) : Handler × WrappedView :=
  let f1 : Handler := { f with provide_automatic_options := some false }
  (f1,
    { name := f1.name
      provide_automatic_options := f1.provide_automatic_options
      call := fun env method => wrapped_function p env method f1.func })

/-! ### Basic lemmas about the header map -/

theorem lowerEq_refl (a : String) : lowerEq a a = true := by
  simp [lowerEq]

theorem lowerEq_false_symm {a b : String} (h : lowerEq a b = false) :
    lowerEq b a = false := by
  simp only [lowerEq, beq_eq_false_iff_ne, ne_eq] at h ⊢
  exact fun e => h e.symm

theorem lowerEq_false_of_left {a b c : String} (hab : lowerEq a b = true)
    (hbc : lowerEq b c = false) : lowerEq a c = false := by
  simp only [lowerEq, beq_iff_eq, beq_eq_false_iff_ne, ne_eq] at hab hbc ⊢
  exact fun e => hbc (hab.symm.trans e)

theorem hget_hset_self (h : Headers) (k v : String) :
    hget (hset h k v) k = some v := by
  induction h with
  | nil => simp [hget, hset, lowerEq_refl]
  | cons p t ih =>
      by_cases hp : lowerEq p.1 k
      · simpa [hset, List.filter_cons, hp] using ih
      · simpa [hset, List.filter_cons, hp, hget] using ih

theorem hget_hset_ne (h : Headers) {k k2 : String} (v : String)
    (hne : lowerEq k2 k = false) : hget (hset h k2 v) k = hget h k := by
  induction h with
  | nil => simp [hget, hset, hne]
  | cons p t ih =>
      by_cases hp : lowerEq p.1 k2
      · have hpk : lowerEq p.1 k = false := lowerEq_false_of_left hp hne
        simpa [hset, List.filter_cons, hp, hget, hpk] using ih
      · by_cases hpk : lowerEq p.1 k
        · simp [hset, List.filter_cons, hp, hget, hpk]
        · simpa [hset, List.filter_cons, hp, hget, hpk] using ih

/-! ### The Python string order is total and transitive -/

theorem charListLeb_total : ∀ as bs : List Char,
    charListLeb as bs = true ∨ charListLeb bs as = true
  | [], _ => Or.inl rfl
  | _ :: _, [] => Or.inr rfl
  | a :: as, b :: bs => by
      rcases lt_trichotomy a b with h | h | h
      · exact Or.inl (by simp [charListLeb, h])
      · subst h
        rcases charListLeb_total as bs with ih | ih
        · exact Or.inl (by simp [charListLeb, lt_irrefl, ih])
        · exact Or.inr (by simp [charListLeb, lt_irrefl, ih])
      · exact Or.inr (by simp [charListLeb, h])

theorem charListLeb_trans : ∀ as bs cs : List Char,
    charListLeb as bs = true → charListLeb bs cs = true →
    charListLeb as cs = true
  | [], _, _, _, _ => rfl
  | _ :: _, [], _, h1, _ => by simp [charListLeb] at h1
  | _ :: _, _ :: _, [], _, h2 => by simp [charListLeb] at h2
  | a :: as, b :: bs, c :: cs, h1, h2 => by
      by_cases hab : a < b
      · by_cases hbc : b < c
        · simp [charListLeb, lt_trans hab hbc]
        · by_cases hcb : c < b
          · simp [charListLeb, hbc, hcb] at h2
          · have hbced : b = c := le_antisymm (le_of_not_lt hcb) (le_of_not_lt hbc)
            subst hbced
            simp [charListLeb, hab]
      · by_cases hba : b < a
        · simp [charListLeb, hab, hba] at h1
        · have habed : a = b := le_antisymm (le_of_not_lt hba) (le_of_not_lt hab)
          subst habed
          simp only [charListLeb, lt_irrefl, if_false] at h1
          by_cases hac : a < c
          · simp [charListLeb, hac]
          · by_cases hca : c < a
            · simp [charListLeb, hac, hca] at h2
            · have haced : a = c := le_antisymm (le_of_not_lt hca) (le_of_not_lt hac)
              subst haced
              simp only [charListLeb, lt_irrefl, if_false] at h2 ⊢
              exact charListLeb_trans as bs cs h1 h2

theorem strLeb_total (a b : String) : strLeb a b = true ∨ strLeb b a = true :=
  charListLeb_total a.data b.data

theorem strLeb_trans {a b c : String} (h1 : strLeb a b = true)
    (h2 : strLeb b c = true) : strLeb a c = true :=
  charListLeb_trans a.data b.data c.data h1 h2

instance : IsTotal String (fun a b => strLeb a b = true) :=
  ⟨strLeb_total⟩

instance : IsTrans String (fun a b => strLeb a b = true) :=
  ⟨fun _ _ _ h1 h2 => strLeb_trans h1 h2⟩

/-! ### The four CORS header names are pairwise distinct, case-insensitively -/

theorem lowerEq_ho :
    lowerEq "Access-Control-Allow-Headers" "Access-Control-Allow-Origin" = false := by decide

theorem lowerEq_ao :
    lowerEq "Access-Control-Max-Age" "Access-Control-Allow-Origin" = false := by decide

theorem lowerEq_mo :
    lowerEq "Access-Control-Allow-Methods" "Access-Control-Allow-Origin" = false := by decide

theorem lowerEq_hm :
    lowerEq "Access-Control-Allow-Headers" "Access-Control-Allow-Methods" = false := by decide

theorem lowerEq_am :
    lowerEq "Access-Control-Max-Age" "Access-Control-Allow-Methods" = false := by decide

theorem lowerEq_ha :
    lowerEq "Access-Control-Allow-Headers" "Access-Control-Max-Age" = false := by decide

theorem lowerEq_ah :
    lowerEq "Access-Control-Max-Age" "Access-Control-Allow-Headers" = false := by decide

theorem lowerEq_mh :
    lowerEq "Access-Control-Allow-Methods" "Access-Control-Allow-Headers" = false := by decide

theorem lowerEq_oh :
    lowerEq "Access-Control-Allow-Origin" "Access-Control-Allow-Headers" = false := by decide

/-! ### What a successful header attachment looks like -/

/-- Characterisation of a successful run of the header-assignment block:
the three unconditional headers hold the configured origin, the
`get_methods()` result and `str(max_age)`; `Access-Control-Allow-Headers`
holds the configured value when one exists and is otherwise whatever the
incoming response already had. -/
theorem hget_attach (p : Policy) (env : Env) (resp r : Response)
    (hw : attach_cors p env resp = some r) :
    ∃ ms ma, get_methods p env = some ms ∧ pyStr_max_age p.max_age = some ma ∧
      hget r.headers "Access-Control-Allow-Origin" = some p.origin ∧
      hget r.headers "Access-Control-Allow-Methods" = some ms ∧
      hget r.headers "Access-Control-Max-Age" = some ma ∧
      (∀ hs, p.headers = some hs →
        hget r.headers "Access-Control-Allow-Headers" = some hs) ∧
      (p.headers = Option.none →
        hget r.headers "Access-Control-Allow-Headers" =
          hget resp.headers "Access-Control-Allow-Headers") := by
  rcases hm : get_methods p env with _ | ms
  · simp [attach_cors, hm] at hw
  rcases ha : pyStr_max_age p.max_age with _ | ma
  · simp [attach_cors, hm, ha] at hw
  refine ⟨ms, ma, rfl, rfl, ?_⟩
  cases hh : p.headers with
  | none =>
      simp only [attach_cors, hm, ha, hh, Option.some.injEq] at hw
      subst hw
      refine ⟨?_, ?_, ?_, ?_, ?_⟩
      · rw [hget_hset_ne _ _ lowerEq_ao, hget_hset_ne _ _ lowerEq_mo,
          hget_hset_self]
      · rw [hget_hset_ne _ _ lowerEq_am, hget_hset_self]
      · rw [hget_hset_self]
      · intro hs hcontr
        cases hcontr
      · intro _
        rw [hget_hset_ne _ _ lowerEq_ah, hget_hset_ne _ _ lowerEq_mh,
          hget_hset_ne _ _ lowerEq_oh]
  | some hs =>
      simp only [attach_cors, hm, ha, hh, Option.some.injEq] at hw
      subst hw
      refine ⟨?_, ?_, ?_, ?_, ?_⟩
      · rw [hget_hset_ne _ _ lowerEq_ho, hget_hset_ne _ _ lowerEq_ao,
          hget_hset_ne _ _ lowerEq_mo, hget_hset_self]
      · rw [hget_hset_ne _ _ lowerEq_hm, hget_hset_ne _ _ lowerEq_am,
          hget_hset_self]
      · rw [hget_hset_ne _ _ lowerEq_ha, hget_hset_self]
      · intro hs2 hhs2
        cases hhs2
        rw [hget_hset_self]
      · intro hcontr
        cases hcontr

/-- When `attach_to_all` is set or the request method is OPTIONS, the
early return is skipped and the invocation runs the header-assignment
block on the base response. -/
theorem wrapped_attaches (p : Policy) (env : Env) (m : String)
    (f : Unit → Response) (resp : Response)
    (hc : p.attach_to_all = true ∨ m = "OPTIONS")
    (hw : wrapped_function p env m f = some resp) :
    attach_cors p env (base_response p env m f) = some resp := by
  unfold wrapped_function at hw
  rcases hc with hc | hc
  · simpa [hc] using hw
  · subst hc
    simpa using hw

/-! ### Auxiliary facts about `str(max_age)` -/

theorem pyStr_max_age_int (n : Int) :
    pyStr_max_age (MaxAgeVal.int n) = some (toString n) := rfl

theorem pyStr_max_age_whole (n : Int) (hb : n.natAbs < 10 ^ 11) :
    pyStr_max_age (MaxAgeVal.float (n * 1000000)) = some (toString n ++ ".0") := by
  have hq : (n * 1000000 : Int) / 1000000 = n := by omega
  have hr : (n * 1000000 : Int) % 1000000 = 0 := by omega
  have hb2 : n.natAbs < 100000000000 := by omega
  simp [pyStr_max_age, hr, hq, hb2]

theorem append_dot_zero_ne (s : String) : s ++ ".0" ≠ s := by
  intro h
  have hlen := congrArg String.length h
  have h2 : (".0" : String).length = 2 := rfl
  rw [String.length_append, h2] at hlen
  omega

/-! ### Concrete sample inputs shared by the witnesses -/

def sampleEnv : Env :=
  { defaultOptionsResp := { body := "", headers := [("Allow", "GET, HEAD, OPTIONS")] } }

def sampleHandler : Unit → Response := fun _ => { body := "ok", headers := [] }

def sampleHandlerDup : Unit → Response := fun _ => { body := "ok", headers := [] }

def sampleHandler2 : Unit → Response :=
  fun _ => { body := "other", headers := [("X-Extra", "1")] }

def preHeaderHandler : Unit → Response :=
  fun _ => { body := "ok", headers := [("Access-Control-Allow-Headers", "X-Custom")] }

def samplePolicy : Policy :=
  { origin := "*", methods := Option.none, headers := Option.none,
    max_age := MaxAgeVal.int 21600, attach_to_all := true,
    automatic_options := true }

def noAttachPolicy : Policy :=
  { samplePolicy with attach_to_all := false }

def tdPolicy : Policy :=
  (crossdomain (PyVal.str "*") (some ["GET"]) PyVal.none
    (MaxAgeArg.timedelta 21600000000) true true).getD samplePolicy

def sampleGetResp : Response :=
  (wrapped_function samplePolicy sampleEnv "GET" sampleHandler).getD
    { body := "", headers := [] }

def tdResp : Response :=
  (wrapped_function tdPolicy sampleEnv "GET" sampleHandler).getD
    { body := "", headers := [] }

def preResp : Response :=
  (wrapped_function samplePolicy sampleEnv "GET" preHeaderHandler).getD
    { body := "", headers := [] }

/-! ### The claims -/

/-- Claim C1: for an OPTIONS request under `automatic_options=True` the
wrapped handler is never invoked — the invocation's result is the same for
every handler — and the returned response is obtained by attaching the CORS
headers to the framework's default OPTIONS response. -/
theorem crossdomain_options_skips_handler (p : Policy) (env : Env)
    (f g : Unit → Response) (h : p.automatic_options = true) :
    wrapped_function p env "OPTIONS" f =
      attach_cors p env env.defaultOptionsResp ∧
    wrapped_function p env "OPTIONS" f = wrapped_function p env "OPTIONS" g := by
  constructor <;> simp [wrapped_function, base_response, h]

theorem crossdomain_options_skips_handler_witness :
    samplePolicy.automatic_options = true ∧
    (wrapped_function samplePolicy sampleEnv "OPTIONS" sampleHandler =
      attach_cors samplePolicy sampleEnv sampleEnv.defaultOptionsResp ∧
     wrapped_function samplePolicy sampleEnv "OPTIONS" sampleHandler =
      wrapped_function samplePolicy sampleEnv "OPTIONS" sampleHandler2) :=
  ⟨rfl, crossdomain_options_skips_handler samplePolicy sampleEnv
    sampleHandler sampleHandler2 rfl⟩

/-- Claim C2: a GET request under `attach_to_all=True` always returns a
response whose `Access-Control-Allow-Origin` header is the configured
origin string. -/
theorem get_attaches_allow_origin (p : Policy) (env : Env)
    (f : Unit → Response) (resp : Response)
    (ha : p.attach_to_all = true)
    (hw : wrapped_function p env "GET" f = some resp) :
    hget resp.headers "Access-Control-Allow-Origin" = some p.origin := by
  have h2 := wrapped_attaches p env "GET" f resp (Or.inl ha) hw
  obtain ⟨ms, ma, _, _, ho, _⟩ := hget_attach p env _ resp h2
  exact ho

theorem get_attaches_allow_origin_witness :
    samplePolicy.attach_to_all = true ∧
    hget sampleGetResp.headers "Access-Control-Allow-Origin" =
      some samplePolicy.origin :=
  ⟨rfl, get_attaches_allow_origin samplePolicy sampleEnv sampleHandler
    sampleGetResp rfl (by decide)⟩

/-- Claim C3: with `attach_to_all=False` a non-OPTIONS request returns the
handler's (coerced) response completely unmodified: no header is added or
changed. -/
theorem no_attach_returns_unmodified (p : Policy) (env : Env) (m : String)
    (f : Unit → Response) (ha : p.attach_to_all = false)
    (hm : m ≠ "OPTIONS") :
    wrapped_function p env m f = some (make_response (f ())) := by
  simp [wrapped_function, base_response, make_response, ha, hm]

theorem no_attach_returns_unmodified_witness :
    noAttachPolicy.attach_to_all = false ∧ ("GET" : String) ≠ "OPTIONS" ∧
    wrapped_function noAttachPolicy sampleEnv "GET" sampleHandler =
      some (make_response (sampleHandler ())) :=
  ⟨rfl, by decide, no_attach_returns_unmodified noAttachPolicy sampleEnv
    "GET" sampleHandler rfl (by decide)⟩

/-- Claim C4: whenever the CORS headers are attached,
`Access-Control-Allow-Methods` equals the `get_methods()` result, which is
the configured method list when one was configured and otherwise the
`allow` header of the framework's default OPTIONS response supplied by the
current invocation's environment. -/
theorem allow_methods_value (p : Policy) (env : Env) (m : String)
    (f : Unit → Response) (resp : Response)
    (hc : p.attach_to_all = true ∨ m = "OPTIONS")
    (hw : wrapped_function p env m f = some resp) :
    hget resp.headers "Access-Control-Allow-Methods" = get_methods p env ∧
    (∀ ms, p.methods = some ms → get_methods p env = some ms) ∧
    (p.methods = Option.none →
      get_methods p env = hget env.defaultOptionsResp.headers "allow") := by
  have h2 := wrapped_attaches p env m f resp hc hw
  obtain ⟨ms, ma, hm, _, _, hmm, _⟩ := hget_attach p env _ resp h2
  refine ⟨by rw [hmm, hm], ?_, ?_⟩
  · intro ms2 hms2
    simp [get_methods, hms2]
  · intro hnone
    simp [get_methods, hnone]

theorem allow_methods_value_witness :
    (samplePolicy.attach_to_all = true ∨ ("GET" : String) = "OPTIONS") ∧
    (hget sampleGetResp.headers "Access-Control-Allow-Methods" =
      get_methods samplePolicy sampleEnv ∧
     (∀ ms, samplePolicy.methods = some ms →
       get_methods samplePolicy sampleEnv = some ms) ∧
     (samplePolicy.methods = Option.none →
       get_methods samplePolicy sampleEnv =
         hget sampleEnv.defaultOptionsResp.headers "allow")) :=
  ⟨Or.inl rfl, allow_methods_value samplePolicy sampleEnv "GET"
    sampleHandler sampleGetResp (Or.inl rfl) (by decide)⟩

/-- Claim C5, counterexample: configuring `max_age` as a six-hour
`timedelta` makes the attached `Access-Control-Max-Age` header render as
the float string `"21600.0"`, not as the integer rendering `"21600"` the
claim demands. -/
theorem max_age_timedelta_renders_float_cex :
    crossdomain (PyVal.str "*") (some ["GET"]) PyVal.none
      (MaxAgeArg.timedelta 21600000000) true true = some tdPolicy ∧
    (wrapped_function tdPolicy sampleEnv "GET" sampleHandler).map
      (fun r => hget r.headers "Access-Control-Max-Age") =
      some (some "21600.0") ∧
    (wrapped_function tdPolicy sampleEnv "GET" sampleHandler).map
      (fun r => hget r.headers "Access-Control-Max-Age") ≠
      some (some "21600") :=
  ⟨by decide, by decide, by decide⟩

/-- Claim C5 (amended): whenever the CORS headers are attached, an integer
`max_age` of `n` seconds renders as the decimal string of `n`, while a
`timedelta` of a whole number `n` of seconds (with `|n| < 10 ^ 11`)
renders as the Python float form — the decimal string of `n` followed by
`".0"` — which is not the integer rendering. -/
theorem max_age_render_amended (p : Policy) (env : Env) (m : String)
    (f : Unit → Response) (resp : Response)
    (hc : p.attach_to_all = true ∨ m = "OPTIONS")
    (hw : wrapped_function p env m f = some resp) :
    (∀ n, p.max_age = MaxAgeVal.int n →
      hget resp.headers "Access-Control-Max-Age" = some (toString n)) ∧
    (∀ n, p.max_age = MaxAgeVal.float (n * 1000000) → n.natAbs < 10 ^ 11 →
      hget resp.headers "Access-Control-Max-Age" =
        some (toString n ++ ".0") ∧
      some (toString n ++ ".0") ≠ some (toString n)) := by
  have h2 := wrapped_attaches p env m f resp hc hw
  obtain ⟨ms, ma, _, hma, _, _, hmax, _⟩ := hget_attach p env _ resp h2
  constructor
  · intro n hn
    rw [hn, pyStr_max_age_int] at hma
    cases hma
    exact hmax
  · intro n hn hb
    rw [hn, pyStr_max_age_whole n hb] at hma
    cases hma
    refine ⟨hmax, ?_⟩
    intro hx
    exact append_dot_zero_ne (toString n) (Option.some.inj hx)

theorem max_age_render_amended_witness :
    (tdPolicy.attach_to_all = true ∨ ("GET" : String) = "OPTIONS") ∧
    tdPolicy.max_age = MaxAgeVal.float (21600 * 1000000) ∧
    (21600 : Int).natAbs < 10 ^ 11 ∧
    (hget tdResp.headers "Access-Control-Max-Age" =
      some (toString (21600 : Int) ++ ".0") ∧
     some (toString (21600 : Int) ++ ".0") ≠ some (toString (21600 : Int))) :=
  ⟨Or.inl (by decide), by decide, by decide,
    (max_age_render_amended tdPolicy sampleEnv "GET" sampleHandler tdResp
      (Or.inl (by decide)) (by decide)).2 21600 (by decide) (by decide)⟩

/-- Claim C6, counterexample: with `headers` unset, a handler response
that already carries `Access-Control-Allow-Headers` keeps it — the final
response carries the header even though the policy never configured it. -/
theorem allow_headers_preexisting_cex :
    samplePolicy.headers = Option.none ∧
    (wrapped_function samplePolicy sampleEnv "GET" preHeaderHandler).map
      (fun r => hget r.headers "Access-Control-Allow-Headers") =
      some (some "X-Custom") :=
  ⟨rfl, by decide⟩

/-- Claim C6 (amended): the decorator itself adds
`Access-Control-Allow-Headers` exactly when the policy's `headers` field
is configured: if configured (and the attachment conditions hold) the
final response carries the configured value; if unset the wrapper neither
adds nor removes the header, so its value in the final response is
whatever the underlying response (default OPTIONS response or handler
response) already had. -/
theorem allow_headers_presence_amended (p : Policy) (env : Env) (m : String)
    (f : Unit → Response) (resp : Response)
    (hw : wrapped_function p env m f = some resp) :
    (∀ hs, p.headers = some hs → (p.attach_to_all = true ∨ m = "OPTIONS") →
      hget resp.headers "Access-Control-Allow-Headers" = some hs) ∧
    (p.headers = Option.none →
      hget resp.headers "Access-Control-Allow-Headers" =
        hget (base_response p env m f).headers
          "Access-Control-Allow-Headers") := by
  constructor
  · intro hs hhs hc
    have h2 := wrapped_attaches p env m f resp hc hw
    obtain ⟨ms, ma, _, _, _, _, _, hsome, _⟩ := hget_attach p env _ resp h2
    exact hsome hs hhs
  · intro hnone
    cases hcond : (!p.attach_to_all && (m != "OPTIONS")) with
    | true =>
        simp only [wrapped_function, hcond, if_true, Option.some.injEq] at hw
        subst hw
        rfl
    | false =>
        simp only [wrapped_function, hcond, Bool.false_eq_true,
          if_false] at hw
        obtain ⟨ms, ma, _, _, _, _, _, _, hnonec⟩ :=
          hget_attach p env _ resp hw
        exact hnonec hnone

theorem allow_headers_presence_amended_witness :
    samplePolicy.headers = Option.none ∧
    hget preResp.headers "Access-Control-Allow-Headers" =
      hget (base_response samplePolicy sampleEnv "GET"
        preHeaderHandler).headers "Access-Control-Allow-Headers" :=
  ⟨rfl, (allow_headers_presence_amended samplePolicy sampleEnv "GET"
    preHeaderHandler preResp (by decide)).2 rfl⟩

/-- Claim C7: the policy closed over at decoration time is never mutated
by an invocation: two invocations with the same request method whose
handlers produce the same result return identical responses. -/
theorem policy_immutable_same_output (p : Policy) (env : Env) (m : String)
    (f g : Unit → Response) (h : f () = g ()) :
    wrapped_function p env m f = wrapped_function p env m g := by
  simp [wrapped_function, base_response, make_response, h]

theorem policy_immutable_same_output_witness :
    sampleHandler () = sampleHandlerDup () ∧
    wrapped_function samplePolicy sampleEnv "GET" sampleHandler =
      wrapped_function samplePolicy sampleEnv "GET" sampleHandlerDup :=
  ⟨rfl, policy_immutable_same_output samplePolicy sampleEnv "GET"
    sampleHandler sampleHandlerDup rfl⟩

/-- Claim C8: calling `crossdomain` with the default origin `None`, or
with any other non-string non-iterable origin, fails at decoration time
(the unconditional join raises `TypeError`); consequently every successful
decoration passed a string or an iterable of strings as the origin. -/
theorem crossdomain_origin_required (methods : Option (List String))
    (headers : PyVal) (max_age : MaxAgeArg) (a b : Bool) :
    crossdomain PyVal.none methods headers max_age a b = Option.none ∧
    crossdomain PyVal.other methods headers max_age a b = Option.none ∧
    (∀ o p, crossdomain o methods headers max_age a b = some p →
      (∃ s, o = PyVal.str s) ∨ (∃ xs, o = PyVal.strList xs)) := by
  refine ⟨?_, ?_, ?_⟩
  · rcases hh : normalize_headers headers with _ | hv <;>
      simp [crossdomain, hh, normalize_origin]
  · rcases hh : normalize_headers headers with _ | hv <;>
      simp [crossdomain, hh, normalize_origin]
  · intro o p hcd
    cases o with
    | str s => exact Or.inl ⟨s, rfl⟩
    | strList xs => exact Or.inr ⟨xs, rfl⟩
    | none =>
        rcases hh : normalize_headers headers with _ | hv <;>
          simp [crossdomain, hh, normalize_origin] at hcd
    | other =>
        rcases hh : normalize_headers headers with _ | hv <;>
          simp [crossdomain, hh, normalize_origin] at hcd

theorem crossdomain_origin_required_witness :
    crossdomain PyVal.none Option.none PyVal.none (MaxAgeArg.int 21600)
      true true = Option.none ∧
    ((∃ s, PyVal.str "*" = PyVal.str s) ∨
     (∃ xs, PyVal.str "*" = PyVal.strList xs)) :=
  ⟨(crossdomain_origin_required Option.none PyVal.none (MaxAgeArg.int 21600)
      true true).1,
   (crossdomain_origin_required Option.none PyVal.none (MaxAgeArg.int 21600)
      true true).2.2 (PyVal.str "*") samplePolicy (by decide)⟩

/-- Claim C9: decoration sets `provide_automatic_options` to `False` on
the original handler function, and (through `update_wrapper` copying the
attribute dict) the returned wrapper carries the same attribute. -/
theorem decorator_disables_automatic_options (p : Policy) (f : Handler) :
    ((decorator p f).1).provide_automatic_options = some false ∧
    ((decorator p f).2).provide_automatic_options = some false := by
  constructor <;> rfl

/-- Claim C10: normalisation at decoration time is asymmetric — a
`headers` string is kept verbatim, a `headers` iterable is uppercased
element-wise and comma-joined in the given order, while `methods` are
uppercased and then sorted (the stored string joins a sorted permutation
of the uppercased inputs). -/
theorem normalisation_asymmetry :
    (∀ s, normalize_headers (PyVal.str s) = some (some s)) ∧
    (∀ xs, normalize_headers (PyVal.strList xs) =
      some (some (String.intercalate ", " (xs.map pyUpper)))) ∧
    (∀ xs, ∃ ys, normalize_methods xs = String.intercalate ", " ys ∧
      ys.Perm (xs.map pyUpper) ∧
      List.Sorted (fun a b => strLeb a b = true) ys) := by
  refine ⟨fun s => rfl, fun xs => rfl, fun xs => ?_⟩
  exact ⟨pySorted (xs.map pyUpper), rfl, List.perm_insertionSort _ _,
    List.sorted_insertionSort _ _⟩

end Rainman
